import Mathlib

/-!
Verification development for the LoseItForReal record store
(`tools/server.py`): the scalar coercion, the indentation-sensitive
block parser, the entry normalizer, the JSONL persistence helpers and
the upsert logic, embedded as executable Lean functions, together with
theorems about them.

Python strings are modelled as Lean `String` (a list of characters);
Python machine-level behaviour that the store never exercises (IEEE
float arithmetic, unicode case folding beyond ASCII) is modelled by
carrying the source token, as noted at each definition.
-/

set_option autoImplicit false

namespace LoseIt

/-! ## Character/string primitives mirroring the Python methods used by the source -/

/-- The characters removed by Python `str.strip()` (ASCII whitespace). -/
def isPySpace (c : Char) : Bool :=
  c == ' ' || c == '\t' || c == '\n' || c == '\r' || c == '\x0b' || c == '\x0c'

/-- Membership in the regex class `\d`. -/
def isDigitCh (c : Char) : Bool := decide ('0' ≤ c) && decide (c ≤ '9')

/-- Membership in `[A-Za-z]`. -/
def isAlphaCh (c : Char) : Bool :=
  (decide ('A' ≤ c) && decide (c ≤ 'Z')) || (decide ('a' ≤ c) && decide (c ≤ 'z'))

/-- Membership in the regex class `[A-Za-z0-9_]` used for keys. -/
def isWordChar (c : Char) : Bool := isAlphaCh c || isDigitCh c || c == '_'

/-- ASCII lower-casing of one character, as `str.lower()` does on the
tokens this program compares (`null`, `none`, `true`, `false`). -/
def pyLowerChar (c : Char) : Char :=
  if 'A' ≤ c ∧ c ≤ 'Z' then Char.ofNat (c.toNat + 32) else c

/-- Python `str.lower()` (ASCII case folding). -/
def pyLower (s : String) : String := String.mk (s.data.map pyLowerChar)

/-- Drop the longest suffix whose characters satisfy `p`. -/
def dropTrail (p : Char → Bool) (l : List Char) : List Char :=
  (l.reverse.dropWhile p).reverse

/-- Python `str.strip()` with no argument: remove leading and trailing whitespace. -/
def pyStrip (s : String) : String :=
  String.mk (dropTrail isPySpace (s.data.dropWhile isPySpace))

/-- `len(raw) - len(raw.lstrip(" "))`: the number of leading space characters. -/
def leadingSpaces (s : String) : Nat := (s.data.takeWhile (fun c => c == ' ')).length

/-- Python slicing `s[n:]` (by characters). -/
def dropChars (n : Nat) (s : String) : String := String.mk (s.data.drop n)

/-- Python `s.lstrip(" ")`: remove leading space characters only. -/
def lstripSp (s : String) : String := String.mk (s.data.dropWhile (fun c => c == ' '))

/-- Python `s.rstrip("\n")`: remove trailing newline characters only. -/
def rstripNl (s : String) : String := String.mk (dropTrail (fun c => c == '\n') s.data)

/-- Numeric value of a digit string (the value `int()` computes on a
token already matched by `-?\d+`, where it cannot raise). -/
def digitsToNat (l : List Char) : Nat := l.foldl (fun a c => a * 10 + (c.toNat - 48)) 0

/-- One or more characters, all digits: the regex `\d+`. -/
def isDigits (l : List Char) : Bool := !l.isEmpty && l.all isDigitCh

/-- The part of a numeric token after the optional leading minus sign. -/
def unsigned (s : String) : List Char :=
  if s.data.head? == some '-' then s.data.tail else s.data

/-- `re.fullmatch(r"-?\d+", s)`. -/
def isIntToken (s : String) : Bool := isDigits (unsigned s)

/-- `int(s)` on a token matched by `-?\d+` (the `try` in the source never fails there). -/
def strToInt (s : String) : Int :=
  if s.data.head? == some '-' then -(digitsToNat s.data.tail : Int)
  else (digitsToNat s.data : Int)

/-- `re.fullmatch(r"-?\d+\.\d+", s)`. -/
def isFloatToken (s : String) : Bool :=
  ((unsigned s).takeWhile isDigitCh).isEmpty == false &&
    (match (unsigned s).dropWhile isDigitCh with
     | [] => false
     | c :: d2 => c == '.' && isDigits d2)

/-- Is `c` one of the line-break characters recognised by Python `str.splitlines()`
(other than the carriage return, which is handled together with `\r\n`)? -/
def isLineBreak (c : Char) : Bool :=
  c == '\n' || c == '\x0b' || c == '\x0c' || c == '\x1c' || c == '\x1d' ||
    c == '\x1e' || c == '\x85' || c == '\u2028' || c == '\u2029'

/-- Worker for `pySplitlines`, carrying the current (reversed) line. -/
def splitlinesAux : List Char → List Char → List (List Char)
  | [], acc => if acc.isEmpty then [] else [acc.reverse]
  | '\r' :: '\n' :: rest2, acc => acc.reverse :: splitlinesAux rest2 []
  | '\r' :: rest, acc => acc.reverse :: splitlinesAux rest []
  | c :: rest, acc =>
    if isLineBreak c then acc.reverse :: splitlinesAux rest []
    else splitlinesAux rest (c :: acc)

/-- Python `str.splitlines()`. -/
def pySplitlines (s : String) : List String := (splitlinesAux s.data []).map String.mk

/-! ## The dynamic value universe

`Val` models the Python values the entry pipeline manipulates: the
scalars produced by `_parse_scalar` / JSON decoding and nested dicts.
A float carries its source token: the program never computes with
floats, it only stores and re-serialises them. -/

inductive Val where
  | null
  | bool (b : Bool)
  | int (n : Int)
  | float (tok : String)
  | str (s : String)
  | dict (fields : List (String × Val))

/-- A Python dict with string keys, in insertion order. -/
abbrev Dict := List (String × Val)

mutual
def valDecEq (a b : Val) : Decidable (a = b) :=
  match a, b with
  | .null, .null => isTrue rfl
  | .bool x, .bool y => if h : x = y then isTrue (by rw [h]) else isFalse (by intro hc; cases hc; exact h rfl)
  | .int x, .int y => if h : x = y then isTrue (by rw [h]) else isFalse (by intro hc; cases hc; exact h rfl)
  | .float x, .float y => if h : x = y then isTrue (by rw [h]) else isFalse (by intro hc; cases hc; exact h rfl)
  | .str x, .str y => if h : x = y then isTrue (by rw [h]) else isFalse (by intro hc; cases hc; exact h rfl)
  | .dict x, .dict y =>
    match fieldsDecEq x y with
    | isTrue h => isTrue (by rw [h])
    | isFalse h => isFalse (by intro hc; cases hc; exact h rfl)
  | .null, .bool _ => isFalse (by intro h; cases h)
  | .null, .int _ => isFalse (by intro h; cases h)
  | .null, .float _ => isFalse (by intro h; cases h)
  | .null, .str _ => isFalse (by intro h; cases h)
  | .null, .dict _ => isFalse (by intro h; cases h)
  | .bool _, .null => isFalse (by intro h; cases h)
  | .bool _, .int _ => isFalse (by intro h; cases h)
  | .bool _, .float _ => isFalse (by intro h; cases h)
  | .bool _, .str _ => isFalse (by intro h; cases h)
  | .bool _, .dict _ => isFalse (by intro h; cases h)
  | .int _, .null => isFalse (by intro h; cases h)
  | .int _, .bool _ => isFalse (by intro h; cases h)
  | .int _, .float _ => isFalse (by intro h; cases h)
  | .int _, .str _ => isFalse (by intro h; cases h)
  | .int _, .dict _ => isFalse (by intro h; cases h)
  | .float _, .null => isFalse (by intro h; cases h)
  | .float _, .bool _ => isFalse (by intro h; cases h)
  | .float _, .int _ => isFalse (by intro h; cases h)
  | .float _, .str _ => isFalse (by intro h; cases h)
  | .float _, .dict _ => isFalse (by intro h; cases h)
  | .str _, .null => isFalse (by intro h; cases h)
  | .str _, .bool _ => isFalse (by intro h; cases h)
  | .str _, .int _ => isFalse (by intro h; cases h)
  | .str _, .float _ => isFalse (by intro h; cases h)
  | .str _, .dict _ => isFalse (by intro h; cases h)
  | .dict _, .null => isFalse (by intro h; cases h)
  | .dict _, .bool _ => isFalse (by intro h; cases h)
  | .dict _, .int _ => isFalse (by intro h; cases h)
  | .dict _, .float _ => isFalse (by intro h; cases h)
  | .dict _, .str _ => isFalse (by intro h; cases h)
def fieldsDecEq (a b : List (String × Val)) : Decidable (a = b) :=
  match a, b with
  | [], [] => isTrue rfl
  | [], _ :: _ => isFalse (by intro h; cases h)
  | _ :: _, [] => isFalse (by intro h; cases h)
  | (k1, v1) :: r1, (k2, v2) :: r2 =>
    if hk : k1 = k2 then
      match valDecEq v1 v2 with
      | isTrue hv =>
        match fieldsDecEq r1 r2 with
        | isTrue hr => isTrue (by rw [hk, hv, hr])
        | isFalse hr => isFalse (by intro hc; injection hc with h1 h2; exact hr h2)
      | isFalse hv => isFalse (by intro hc; injection hc with h1 h2; cases h1; exact hv rfl)
    else isFalse (by intro hc; injection hc with h1 h2; cases h1; exact hk rfl)
end

instance : DecidableEq Val := valDecEq

/-! ## Python rendering of values

`pyRepr` models Python `repr()` and `pyStr` models `str()` on the value
shapes that occur in records.  Caveats, irrelevant to every theorem
below: `repr` of a string is approximated by single quotes without
escaping (no record field that reaches `repr` contains a quote or a
backslash), and a float renders as its source token. -/

mutual
def pyRepr : Val → String
  | .null => "None"
  | .bool true => "True"
  | .bool false => "False"
  | .int n => toString n
  | .float tok => tok
  | .str s => "\x27" ++ s ++ "\x27"
  | .dict fs => "\x7b" ++ String.intercalate (", ") (pyReprFields fs) ++ "\x7d"
def pyReprFields : List (String × Val) → List String
  | [] => []
  | (k, v) :: rest => ("\x27" ++ k ++ "\x27: " ++ pyRepr v) :: pyReprFields rest
end

/-- Python `str()` of a value. -/
def pyStr : Val → String
  | .null => "None"
  | .bool true => "True"
  | .bool false => "False"
  | .int n => toString n
  | .float tok => tok
  | .str s => s
  | .dict fs => pyRepr (.dict fs)

/-! ## Dict operations (Python dict on string keys, insertion-ordered) -/

/-- `d.get(k, dflt)` (first occurrence; a Python dict has unique keys). -/
def dictGetD : Dict → String → Val → Val
  | [], _, dflt => dflt
  | (k0, v0) :: rest, k, dflt => if k0 == k then v0 else dictGetD rest k dflt

/-- `k in d`. -/
def hasKey : Dict → String → Bool
  | [], _ => false
  | (k0, _) :: rest, k => k0 == k || hasKey rest k

/-- `d.get(k, None)` followed by an `is None` test: `none` both when the
key is absent and when it is stored as null, exactly as the source cannot
tell those apart. -/
def dictGetNone : Dict → String → Option Val
  | [], _ => none
  | (k0, v0) :: rest, k =>
    if k0 == k then
      match v0 with
      | Val.null => none
      | v => some v
    else dictGetNone rest k

/-- `d[k] = v`: replace the value at the first occurrence of `k`, keeping
its position, or append a new pair at the end. -/
def dictSet : Dict → String → Val → Dict
  | [], k, v => [(k, v)]
  | (k0, v0) :: rest, k, v =>
    if k0 == k then (k0, v) :: rest else (k0, v0) :: dictSet rest k v

/-! ## `_parse_scalar` (ScalarCoercion) -/

/-- `_parse_scalar` from `tools/server.py`: trim, then empty / null / bool /
int / float / verbatim string, in the source's order.  The `try` blocks
around `int()` and `float()` cannot fire on tokens matched by the regexes,
so they are not modelled. -/
def _parse_scalar (s0 : String) : Val :=
  let s := pyStrip s0
  if s == "" then Val.str s
  else if pyLower s == "null" || pyLower s == "none" then Val.null
  else if pyLower s == "true" || pyLower s == "false" then Val.bool (pyLower s == "true")
  else if isIntToken s then Val.int (strToInt s)
  else if isFloatToken s then Val.float s
  else Val.str s

/-! ## `parse_block` (BlockParser)

The Python parser keeps a stack of `(indent, container-dict)` pairs and
mutates the dicts through aliases held by their parents.  Functionally,
each stack frame carries the key under which its dict will sit in its
parent, and a frame's dict is folded into the parent when the frame is
popped; because every assignment first pops down to its target container,
the fold happens before the parent can gain further keys, so insertion
order is preserved exactly.  The bottom frame is the root, pushed — as in
the source — at indentation level 0. -/

/-- One stack frame: the key line's indentation, the key under which this
container will be stored in its parent (unused for the root), and the
container's contents so far. -/
abbrev Frame := Nat × String × Dict

def nestingErrMsg : String := "Indentation error (bad nesting). Use 2 spaces per level."

/-- Python `repr()` of a line echoed in an error message (approximated:
backslash-escapes for quote, backslash and control characters). -/
def pyStrRepr (s : String) : String :=
  "\x27" ++ String.mk ((s.data.map (fun c =>
    if c == '\\' then ['\\', '\\']
    else if c == '\x27' then ['\\', '\x27']
    else if c == '\n' then ['\\', 'n']
    else if c == '\r' then ['\\', 'r']
    else if c == '\t' then ['\\', 't']
    else [c])).flatten) ++ "\x27"

/-- `re.match(r"^([A-Za-z0-9_]+)\s*:\s*(.*)$", line)`: the key and the
rest, or `none` when the line is not of `key: value` form. -/
def keyRestMatch (line : String) : Option (String × String) :=
  let cs := line.data
  let k := cs.takeWhile isWordChar
  if k.isEmpty then none
  else
    match (cs.dropWhile isWordChar).dropWhile isPySpace with
    | ':' :: r3 => some (String.mk k, String.mk (r3.dropWhile isPySpace))
    | _ => none

/-- The inner `while` loop of the block-literal branch: consume the lines
belonging to a `key: |` literal introduced at indentation `indent`, and
return the collected value lines together with the unconsumed remainder. -/
def gatherBlock (indent : Nat) : List String → (List String × List String)
  | [] => ([], [])
  | nxt :: rest =>
    if pyStrip nxt == "" then
      let res := gatherBlock indent rest
      ("" :: res.1, res.2)
    else if leadingSpaces nxt ≤ indent then ([], nxt :: rest)
    else
      let piece := if indent + 2 ≤ nxt.length then dropChars (indent + 2) nxt else lstripSp nxt
      let res := gatherBlock indent rest
      (piece :: res.1, res.2)

/-- `"\n".join(lines)`. -/
def joinNl : List String → String
  | [] => ""
  | s :: rest =>
    match rest with
    | [] => s
    | _ :: _ => s ++ "\n" ++ joinNl rest

/-- Worker for `popTo`: the current top frame and the frames below it. -/
def popToAux (indent : Nat) : Frame → List Frame → Except String (List Frame)
  | (fi, fk, fd), rest =>
    if indent ≤ fi then
      match rest with
      | [] => throw (nestingErrMsg)
      | (pi, pk, pd) :: rs => popToAux indent (pi, pk, dictSet pd fk (.dict fd)) rs
    else pure ((fi, fk, fd) :: rest)

/-- `current_container`: pop frames whose indentation is `≥ indent`; error
out when the stack empties.  (The source pushes the root at level 0, so a
line at indentation 0 pops the root and hits the error.) -/
def popTo (indent : Nat) : List Frame → Except String (List Frame)
  | [] => throw (nestingErrMsg)
  | f :: rest => popToAux indent f rest

/-- `parent[key] = v` on the container at the top of the stack. -/
def setTop : List Frame → String → Val → List Frame
  | [], _, _ => []
  | (fi, fk, fd) :: rest, k, v => (fi, fk, dictSet fd k v) :: rest

/-- Fold the whole remaining stack into the bottom (root) container and
return its contents: what the aliased `root` dict holds when the loop ends. -/
def collapseStack : Frame → List Frame → Dict
  | (_, _, fd), [] => fd
  | (_, fk, fd), (pi, pk, pd) :: rs => collapseStack (pi, pk, dictSet pd fk (.dict fd)) rs

/-- The main `while i < len(lines)` loop of `parse_block`.  The first
argument is a line budget equal to the number of remaining lines: every
step consumes at least one line, so the budget never runs out when the
caller passes the list length (the zero case is unreachable). -/
def parseLines : Nat → List String → Nat → List Frame → Except String (List Frame)
  | _, [], _, st => pure st
  | 0, _ :: _, _, _ => throw ("parse loop budget exhausted")
  | fuel + 1, raw :: rest, n, st =>
    if pyStrip raw == "" then
      parseLines fuel rest (n + 1) st
    else
      let indent := leadingSpaces raw
      if indent % 2 ≠ 0 then
        throw ("Indentation must be multiples of 2 spaces. Line " ++ toString (n + 1) ++ ": " ++ pyStrRepr raw)
      else
        match keyRestMatch (pyStrip raw) with
        | none =>
          throw ("Bad line format. Expected \x27key: value\x27. Line " ++ toString (n + 1) ++ ": " ++ pyStrRepr raw)
        | some (key, restStr) =>
          match popTo indent st with
          | .error e => .error e
          | .ok st1 =>
            if restStr == "|" then
              let res := gatherBlock indent rest
              parseLines fuel res.2 (n + 1 + res.1.length) (setTop st1 key (.str (rstripNl (joinNl res.1))))
            else if restStr == "" then
              parseLines fuel rest (n + 1) ((indent, key, ([] : Dict)) :: st1)
            else
              parseLines fuel rest (n + 1) (setTop st1 key (_parse_scalar restStr))

/-- Normalise `\r\n` and `\r` to `\n` (the `text.replace` calls). -/
def normNl : List Char → List Char
  | [] => []
  | '\r' :: '\n' :: rest => '\n' :: normNl rest
  | '\r' :: rest => '\n' :: normNl rest
  | c :: rest => c :: normNl rest

/-- `text.split("\n")`. -/
def splitNl : List Char → List (List Char)
  | [] => [[]]
  | '\n' :: rest => [] :: splitNl rest
  | c :: rest =>
    match splitNl rest with
    | l :: ls => (c :: l) :: ls
    | [] => [[c]]

/-- `parse_block` from `tools/server.py`. -/
def parse_block (text : String) : Except String Dict :=
  let lines0 := (splitNl (normNl text.data)).map String.mk
  let lines1 := lines0.dropWhile (fun l => pyStrip l == "")
  let lines2 := (lines1.reverse.dropWhile (fun l => pyStrip l == "")).reverse
  if lines2.isEmpty then throw ("Paste is empty.")
  else
    match parseLines lines2.length lines2 0 [(0, "", ([] : Dict))] with
    | .error e => .error e
    | .ok [] => .ok []
    | .ok (f :: rest) => .ok (collapseStack f rest)

/-! ## The intended parser

The source pushes the root container onto the stack at indentation
level 0 and `current_container` pops every frame whose level is `≥` the
current line's indentation, so the first line at indentation 0 pops the
root itself and parsing fails.  The parser's own docstring, the sample
block rendered on the `/log` page and the spec all describe top-level
`key: value` lines, so the root was clearly meant to act as a sentinel
that is never popped. -/

/-- Modelled from the spec: `current_container` with the root container
as a bottom-of-stack sentinel that is never popped (equivalently, a root
pushed at a level below every line's indentation).  Only this popping
rule differs from `popTo`; everything else in the intended parser is the
source's code. -/
def popToKeep (indent : Nat) : Frame → List Frame → List Frame
  | (fi, fk, fd), [] => [(fi, fk, fd)]
  | (fi, fk, fd), (pi, pk, pd) :: rs =>
    if indent ≤ fi then popToKeep indent (pi, pk, dictSet pd fk (.dict fd)) rs
    else (fi, fk, fd) :: (pi, pk, pd) :: rs

/-- The main loop of the intended parser: identical to `parseLines`
except that container lookup uses `popToKeep`. -/
def parseLinesIntended : Nat → List String → Nat → List Frame → Except String (List Frame)
  | _, [], _, st => pure st
  | 0, _ :: _, _, _ => throw ("parse loop budget exhausted")
  | fuel + 1, raw :: rest, n, st =>
    if pyStrip raw == "" then
      parseLinesIntended fuel rest (n + 1) st
    else
      let indent := leadingSpaces raw
      if indent % 2 ≠ 0 then
        throw ("Indentation must be multiples of 2 spaces. Line " ++ toString (n + 1) ++ ": " ++ pyStrRepr raw)
      else
        match keyRestMatch (pyStrip raw) with
        | none =>
          throw ("Bad line format. Expected \x27key: value\x27. Line " ++ toString (n + 1) ++ ": " ++ pyStrRepr raw)
        | some (key, restStr) =>
          let st1 := match st with
            | [] => []
            | f :: rest0 => popToKeep indent f rest0
          if restStr == "|" then
            let res := gatherBlock indent rest
            parseLinesIntended fuel res.2 (n + 1 + res.1.length) (setTop st1 key (.str (rstripNl (joinNl res.1))))
          else if restStr == "" then
            parseLinesIntended fuel rest (n + 1) ((indent, key, ([] : Dict)) :: st1)
          else
            parseLinesIntended fuel rest (n + 1) (setTop st1 key (_parse_scalar restStr))

/-- `parse_block` as intended (root container never popped). -/
def parse_block_intended (text : String) : Except String Dict :=
  let lines0 := (splitNl (normNl text.data)).map String.mk
  let lines1 := lines0.dropWhile (fun l => pyStrip l == "")
  let lines2 := (lines1.reverse.dropWhile (fun l => pyStrip l == "")).reverse
  if lines2.isEmpty then throw ("Paste is empty.")
  else
    match parseLinesIntended lines2.length lines2 0 [(0, "", ([] : Dict))] with
    | .error e => .error e
    | .ok [] => .ok []
    | .ok (f :: rest) => .ok (collapseStack f rest)

/-! ## JSONL storage helpers

The backing file is modelled by its text (for loading) and the in-memory
entries list (for writing); `json.loads` is an external library routine,
so `load_entries` takes the decoder as a parameter — a line on which the
decoder fails is exactly a line whose JSON parse raises.  JSON arrays do
not occur in this application's records, so a successful decode yields a
`Dict`. -/

/-- The loop body of `load_entries` over the already-split lines: skip
blank lines, decode the rest, and keep a marker object for a line that
fails to decode. -/
def load_entries (jsonLoad : String → Option Dict) : List String → List Dict
  | [] => []
  | line :: rest =>
    if pyStrip line == "" then load_entries jsonLoad rest
    else
      (match jsonLoad line with
       | some obj => obj
       | none => [("_corrupt_line", Val.str line)]) :: load_entries jsonLoad rest

/-- `load_entries` from the file's text (`txt.splitlines()` then the loop). -/
def load_entries_text (jsonLoad : String → Option Dict) (txt : String) : List Dict :=
  load_entries jsonLoad (pySplitlines txt)

/-- Hex digit used in `\u00XX` escapes. -/
def hexDigit (n : Nat) : Char := if n < 10 then Char.ofNat (48 + n) else Char.ofNat (87 + n)

/-- One character under `json.dumps` string escaping (`ensure_ascii=False`). -/
def jsonEscChar (c : Char) : List Char :=
  if c == '\x22' then ['\\', '\x22']
  else if c == '\\' then ['\\', '\\']
  else if c == '\n' then ['\\', 'n']
  else if c == '\t' then ['\\', 't']
  else if c == '\r' then ['\\', 'r']
  else if c == '\x08' then ['\\', 'b']
  else if c == '\x0c' then ['\\', 'f']
  else if c.toNat < 32 then ['\\', 'u', '0', '0', hexDigit (c.toNat / 16), hexDigit (c.toNat % 16)]
  else [c]

/-- `json.dumps` escaping of a string body. -/
def jsonEscape (s : String) : String := String.mk ((s.data.map jsonEscChar).flatten)

mutual
/-- `json.dumps(v, ensure_ascii=False)` with the default separators.
A float serialises as its source token (Python would render the parsed
double, which agrees on canonical tokens; no theorem below serialises a
float). -/
def jsonDumps : Val → String
  | .null => "null"
  | .bool true => "true"
  | .bool false => "false"
  | .int n => toString n
  | .float tok => tok
  | .str s => "\x22" ++ jsonEscape s ++ "\x22"
  | .dict fs => "\x7b" ++ String.intercalate (", ") (jsonFields fs) ++ "\x7d"
def jsonFields : List (String × Val) → List String
  | [] => []
  | (k, v) :: rest => ("\x22" ++ jsonEscape k ++ "\x22: " ++ jsonDumps v) :: jsonFields rest
end

/-- `write_entries`: one compact JSON object per line, in the order of
the entries list (the `for e in entries` loop; no sorting occurs). -/
def write_entries : List Dict → String
  | [] => ""
  | e :: rest => jsonDumps (.dict e) ++ "\n" ++ write_entries rest

/-! ## `upsert_entry` (EntryStore)

The Python function reads the collection from disk, possibly mutates it
and writes it back; here the collection is passed in and the resulting
collection is returned along with `(saved, message)`.  On the reject
path the file is not rewritten, so the returned collection is the input
unchanged. -/

/-- `re.fullmatch(r"\d{4}-\d{2}-\d{2}", s)`. -/
def datePattern (s : String) : Bool :=
  match s.data with
  | [a, b, c, d, e, f, g, h, i, j] =>
    isDigitCh a && isDigitCh b && isDigitCh c && isDigitCh d && e == '-' &&
      isDigitCh f && isDigitCh g && h == '-' && isDigitCh i && isDigitCh j
  | _ => false

/-- `str(e.get("date", "")).strip()`, used both for the incoming record
and for each stored record during the lookup loop. -/
def entryDate (e : Dict) : String := pyStrip (pyStr (dictGetD e ("date") (Val.str (""))))

/-- `upsert_entry` from `tools/server.py`. -/
def upsert_entry (new_entry : Dict) (overwrite : Bool) (entries : List Dict) :
    Except String (List Dict × Bool × String) :=
  let date := entryDate new_entry
  if date == "" then throw ("Missing required field: date")
  else if !datePattern date then throw ("date must be YYYY-MM-DD")
  else
    match entries.findIdx? (fun e => entryDate e == date) with
    | some idx =>
      if !overwrite then
        pure (entries, false, "Entry for " ++ date ++ " already exists. Check overwrite to replace it.")
      else
        pure (entries.set idx new_entry, true, "Overwrote existing entry for " ++ date ++ ".")
    | none => pure (entries ++ [new_entry], true, "Saved new entry for " ++ date ++ ".")

/-! ## `normalize_entry` (EntryNormalizer)

The current local date (used only when `date` is absent) and the UTC
timestamp written into `updated_at` are the two impure inputs of the
source function; they are passed in as `today` and `nowIso`. -/

/-- The meal keys summed into a derived total. -/
def mealKeys : List String := ["breakfast_kcal", "lunch_kcal", "dinner_kcal", "snacks_kcal"]

/-- Python `isinstance(v, int)`: true for ints and for booleans (bool is
an int subtype in the source language). -/
def pyIsInt : Val → Bool
  | .int _ => true
  | .bool _ => true
  | _ => false

/-- The integer value `v` contributes when `isinstance(v, int)` holds
(`True` counts as 1, `False` as 0). -/
def pyIntVal : Val → Int
  | .int n => n
  | .bool b => if b then 1 else 0
  | _ => 0

/-- The top-level alias block: copy `kcal`, `protein_g`, `weight_lb` from
the submitted mapping into `estimates` when absent there. -/
def applyAliases (d : Dict) (fs : Dict) : Dict :=
  let fs1 :=
    if !hasKey fs ("total_kcal") && hasKey d ("kcal") then
      dictSet fs ("total_kcal") (dictGetD d ("kcal") Val.null)
    else fs
  let fs2 :=
    if !hasKey fs1 ("protein_g") && hasKey d ("protein_g") then
      dictSet fs1 ("protein_g") (dictGetD d ("protein_g") Val.null)
    else fs1
  if !hasKey fs2 ("weight_lb") && hasKey d ("weight_lb") then
    dictSet fs2 ("weight_lb") (dictGetD d ("weight_lb") Val.null)
  else fs2

/-- The derived-total block: when `total_kcal` is absent, sum the meal
fields on which `isinstance(v, int)` holds and store the sum if any
contributed. -/
def deriveTotal (fs : Dict) : Dict :=
  if hasKey fs ("total_kcal") then fs
  else
    let acc := mealKeys.foldl
      (fun p k =>
        let v := dictGetD fs k Val.null
        if pyIsInt v then (p.1 + pyIntVal v, true) else p)
      ((0 : Int), false)
    if acc.2 then dictSet fs ("total_kcal") (Val.int acc.1) else fs

/-- `mt[str(k)] = "" if v is None else str(v)` over the meals mapping. -/
def stringifyMeals (mfs : Dict) : Dict :=
  mfs.foldl
    (fun acc p =>
      dictSet acc p.1 (Val.str (match p.2 with
        | Val.null => ""
        | v => pyStr v)))
    []

/-- `est[str(k)] = v` over the estimates mapping. -/
def copyEst (efs : Dict) : Dict := efs.foldl (fun acc p => dictSet acc p.1 p.2) []

/-- Set-then-pop of an optional string field: the entry carries
`str(value)` unless the field was absent/None or stringified to `""`. -/
def optField (k : String) (v : Option Val) : Dict :=
  match v with
  | none => []
  | some w => if pyStr w == "" then [] else [(k, Val.str (pyStr w))]

/-- The tail of `normalize_entry`: the `estimates` shape check and the
assembly of the output record (with the `None`/empty fields popped). -/
def normalizeFinish (date : String) (day_type source notes : Option Val) (mfs : Dict)
    (estimates : Val) (nowIso : String) : Except String Dict :=
  match estimates with
  | .dict efs =>
    pure ([("date", Val.str date)] ++ optField ("day_type") day_type ++
      optField ("source") source ++ optField ("notes") notes ++
      [("meals_text", Val.dict (stringifyMeals mfs)),
       ("estimates", Val.dict (copyEst efs)),
       ("updated_at", Val.str nowIso)])
  | _ => throw ("estimates must be a nested block of numeric fields.")

/-- `normalize_entry` from `tools/server.py`. -/
def normalize_entry (today nowIso : String) (d : Dict) : Except String Dict :=
  let date0 := pyStrip (pyStr (dictGetD d ("date") (Val.str (""))))
  let date := if date0 == "" then today else date0
  let day_type := dictGetNone d ("day_type")
  let source := dictGetNone d ("source")
  let notes := dictGetNone d ("notes")
  let meals_text := dictGetNone d ("meals_text")
  let estimates0 := match dictGetNone d ("estimates") with
    | none => Val.dict []
    | some v => v
  let estimates1 := match estimates0 with
    | .dict fs => Val.dict (deriveTotal (applyAliases d fs))
    | v => v
  match meals_text with
  | some (Val.dict mfs) => normalizeFinish date day_type source notes mfs estimates1 nowIso
  | some _ => throw ("meals_text must be a nested block of meal keys (breakfast/lunch/dinner/snacks).")
  | none => normalizeFinish date day_type source notes [] estimates1 nowIso

/-! ## Concrete fixtures used by the end-to-end and store claims -/

/-- The six-line submission of the end-to-end scenario. -/
def c1input : String :=
  "date: 2025-01-01\nmeals_text:\n  breakfast: |\n    eggs\nestimates:\n  breakfast_kcal: 300"

/-- A stored record whose breakfast text is `eggs`. -/
def eggsEntry : Dict :=
  [("date", Val.str ("2025-01-01")), ("meals_text", Val.dict [("breakfast", Val.str ("eggs"))])]

/-- An incoming record for the same date whose breakfast text is `toast`. -/
def toastEntry : Dict :=
  [("date", Val.str ("2025-01-01")), ("meals_text", Val.dict [("breakfast", Val.str ("toast"))])]

/-! ## Supporting lemmas -/

theorem str_append_empty (s : String) : s ++ "" = s := by
  cases s with
  | mk d => show String.mk (d ++ []) = String.mk d; rw [List.append_nil]

theorem str_append_assoc (a b c : String) : a ++ b ++ c = a ++ (b ++ c) := by
  cases a with
  | mk x =>
    cases b with
    | mk y =>
      cases c with
      | mk z =>
        show String.mk (x ++ y ++ z) = String.mk (x ++ (y ++ z))
        rw [List.append_assoc]

theorem dictSet_append (fs : Dict) (k : String) (v : Val) :
    hasKey fs k = false → dictSet fs k v = fs ++ [(k, v)] := by
  induction fs with
  | nil => intro _; rfl
  | cons p rest ih =>
    intro h
    obtain ⟨k0, v0⟩ := p
    simp only [hasKey, Bool.or_eq_false_iff] at h
    simp only [dictSet, h.1, Bool.false_eq_true, if_false, List.cons_append]
    rw [ih h.2]

theorem pyLowerChar_keep {c : Char} (h : c = '-' ∨ c = '.' ∨ isDigitCh c = true) :
    pyLowerChar c = c := by
  rcases h with h | h | h
  · subst h; decide
  · subst h; decide
  · rw [pyLowerChar, if_neg]
    rintro ⟨h1, _⟩
    simp only [isDigitCh, Bool.and_eq_true, decide_eq_true_eq] at h
    exact absurd (le_trans h1 h.2) (by decide)

theorem map_pyLowerChar_eq_self (l : List Char)
    (hall : ∀ c ∈ l, c = '-' ∨ c = '.' ∨ isDigitCh c = true) : l.map pyLowerChar = l := by
  induction l with
  | nil => rfl
  | cons c rest ih =>
    simp only [List.map_cons]
    rw [pyLowerChar_keep (hall c (by simp)), ih (fun x hx => hall x (by simp [hx]))]

theorem pyLower_eq_self (s : String)
    (hall : ∀ c ∈ s.data, c = '-' ∨ c = '.' ∨ isDigitCh c = true) : pyLower s = s := by
  cases s with
  | mk d =>
    rw [pyLower]
    show String.mk (d.map pyLowerChar) = String.mk d
    rw [map_pyLowerChar_eq_self d hall]

theorem sign_digit_words (s : String)
    (hall : ∀ c ∈ s.data, c = '-' ∨ c = '.' ∨ isDigitCh c = true) :
    pyLower s ≠ "null" ∧ pyLower s ≠ "none" ∧ pyLower s ≠ "true" ∧ pyLower s ≠ "false" := by
  rw [pyLower_eq_self s hall]
  refine ⟨?_, ?_, ?_, ?_⟩ <;> intro h <;> subst h
  · have := hall 'n' (by decide); revert this; decide
  · have := hall 'n' (by decide); revert this; decide
  · have := hall 't' (by decide); revert this; decide
  · have := hall 'f' (by decide); revert this; decide

theorem isDigits_mem {l : List Char} (h : isDigits l = true) : ∀ c ∈ l, isDigitCh c = true := by
  simp only [isDigits, Bool.and_eq_true, List.all_eq_true] at h
  exact fun c hc => h.2 c hc

theorem isIntToken_chars {s : String} (h : isIntToken s = true) :
    ∀ c ∈ s.data, c = '-' ∨ isDigitCh c = true := by
  intro c hc
  rw [isIntToken, unsigned] at h
  rcases hd : s.data with _ | ⟨c0, rest⟩
  · rw [hd] at hc; cases hc
  · rw [hd] at hc h
    simp only [List.head?_cons, List.tail_cons] at h
    by_cases h0 : c0 = '-'
    · subst h0
      replace h : isDigits rest = true := by simpa using h
      rcases List.mem_cons.mp hc with hc | hc
      · exact Or.inl hc
      · exact Or.inr (isDigits_mem h c hc)
    · have hbeq : (some c0 == some '-') = false := beq_eq_false_iff_ne.mpr (by simpa using h0)
      rw [hbeq] at h
      simp only [Bool.false_eq_true, if_false] at h
      exact Or.inr (isDigits_mem h c hc)

theorem isIntToken_ne_empty {s : String} (h : isIntToken s = true) : s ≠ "" := by
  intro he
  subst he
  exact absurd h (by decide)

theorem unsigned_sub {s : String} : ∀ c ∈ unsigned s, c ∈ s.data := by
  intro c hc
  rw [unsigned] at hc
  by_cases hh : (s.data.head? == some '-') = true
  · rw [if_pos hh] at hc; exact List.mem_of_mem_tail hc
  · rw [if_neg hh] at hc; exact hc

theorem isFloatToken_parts {s : String} (h : isFloatToken s = true) :
    ∃ d2, (unsigned s).dropWhile isDigitCh = '.' :: d2 ∧ isDigits d2 = true ∧
      ((unsigned s).takeWhile isDigitCh).isEmpty = false := by
  rw [isFloatToken] at h
  simp only [Bool.and_eq_true, beq_iff_eq] at h
  obtain ⟨h1, h2⟩ := h
  rcases hdw : (unsigned s).dropWhile isDigitCh with _ | ⟨c1, d2⟩
  · rw [hdw] at h2; simp at h2
  · rw [hdw] at h2
    simp only [Bool.and_eq_true, beq_iff_eq] at h2
    obtain ⟨hc1, hd2⟩ := h2
    subst hc1
    exact ⟨d2, rfl, hd2, h1⟩

theorem isFloatToken_chars {s : String} (h : isFloatToken s = true) :
    ∀ c ∈ s.data, c = '-' ∨ c = '.' ∨ isDigitCh c = true := by
  obtain ⟨d2, hdw, hd2, _⟩ := isFloatToken_parts h
  have hu : ∀ c ∈ unsigned s, c = '.' ∨ isDigitCh c = true := by
    intro c hc
    have hsplit : c ∈ (unsigned s).takeWhile isDigitCh ++ (unsigned s).dropWhile isDigitCh := by
      rw [List.takeWhile_append_dropWhile]; exact hc
    rcases List.mem_append.mp hsplit with hm | hm
    · exact Or.inr (List.mem_takeWhile_imp hm)
    · rw [hdw] at hm
      rcases List.mem_cons.mp hm with hm | hm
      · exact Or.inl hm
      · exact Or.inr (isDigits_mem hd2 c hm)
  intro c hc
  by_cases hh : (s.data.head? == some '-') = true
  · rcases hd : s.data with _ | ⟨c0, rest⟩
    · rw [hd] at hc; cases hc
    · have hc0 : c0 = '-' := by rw [hd] at hh; simpa using hh
      have hc' : c = c0 ∨ c ∈ rest := by rw [hd] at hc; exact List.mem_cons.mp hc
      rcases hc' with hcc | hcc
      · exact Or.inl (hcc.trans hc0)
      · have hmem : c ∈ unsigned s := by
          rw [unsigned, if_pos hh, hd]
          simpa using hcc
        rcases hu c hmem with h1 | h1
        · exact Or.inr (Or.inl h1)
        · exact Or.inr (Or.inr h1)
  · have hmem : c ∈ unsigned s := by rw [unsigned, if_neg hh]; exact hc
    rcases hu c hmem with h1 | h1
    · exact Or.inr (Or.inl h1)
    · exact Or.inr (Or.inr h1)

theorem isFloatToken_not_int {s : String} (hf : isFloatToken s = true) : isIntToken s = false := by
  cases hi : isIntToken s with
  | false => rfl
  | true =>
    exfalso
    obtain ⟨d2, hdw, _, _⟩ := isFloatToken_parts hf
    have h1 : ('.' : Char) ∈ (unsigned s).dropWhile isDigitCh := by
      rw [hdw]; exact List.mem_cons_self _ _
    have hdot : ('.' : Char) ∈ unsigned s := (List.dropWhile_sublist _).subset h1
    have := isIntToken_chars hi '.' (unsigned_sub '.' hdot)
    revert this; decide

theorem isFloatToken_ne_empty {s : String} (h : isFloatToken s = true) : s ≠ "" := by
  intro he
  subst he
  exact absurd h (by decide)

/-! ## Claim C8: scalar coercion -/

/-- Claim C8: scalar coercion is a total, deterministic function: for every
input token it trims whitespace and returns the empty string for an empty
token, null for case-insensitive null/none, a boolean for case-insensitive
true/false, an integer for tokens exactly matching -?\d+, a float for
tokens exactly matching -?\d+\.\d+, and otherwise the trimmed string
verbatim. -/
theorem c8_parse_scalar_cases (s : String) :
    (pyStrip s = "" → _parse_scalar s = Val.str ("")) ∧
    ((pyLower (pyStrip s) = "null" ∨ pyLower (pyStrip s) = "none") → _parse_scalar s = Val.null) ∧
    (pyLower (pyStrip s) = "true" → _parse_scalar s = Val.bool true) ∧
    (pyLower (pyStrip s) = "false" → _parse_scalar s = Val.bool false) ∧
    (isIntToken (pyStrip s) = true → _parse_scalar s = Val.int (strToInt (pyStrip s))) ∧
    (isFloatToken (pyStrip s) = true → _parse_scalar s = Val.float (pyStrip s)) ∧
    (pyStrip s ≠ "" → pyLower (pyStrip s) ≠ "null" → pyLower (pyStrip s) ≠ "none" →
      pyLower (pyStrip s) ≠ "true" → pyLower (pyStrip s) ≠ "false" →
      isIntToken (pyStrip s) = false → isFloatToken (pyStrip s) = false →
      _parse_scalar s = Val.str (pyStrip s)) := by
  refine ⟨?_, ?_, ?_, ?_, ?_, ?_, ?_⟩
  · intro h
    simp [_parse_scalar, h]
  · intro h
    have hne : pyStrip s ≠ "" := by
      intro he; rw [he] at h; revert h; decide
    rcases h with h | h <;> simp [_parse_scalar, hne, h]
  · intro h
    have hne : pyStrip s ≠ "" := by
      intro he; rw [he] at h; revert h; decide
    simp [_parse_scalar, hne, h]
  · intro h
    have hne : pyStrip s ≠ "" := by
      intro he; rw [he] at h; revert h; decide
    simp [_parse_scalar, hne, h]
  · intro h
    have hne := isIntToken_ne_empty h
    have hall : ∀ c ∈ (pyStrip s).data, c = '-' ∨ c = '.' ∨ isDigitCh c = true :=
      fun c hc => (isIntToken_chars h c hc).imp id Or.inr
    obtain ⟨w1, w2, w3, w4⟩ := sign_digit_words _ hall
    simp [_parse_scalar, hne, w1, w2, w3, w4, h]
  · intro h
    have hne := isFloatToken_ne_empty h
    obtain ⟨w1, w2, w3, w4⟩ := sign_digit_words _ (isFloatToken_chars h)
    have hni := isFloatToken_not_int h
    simp [_parse_scalar, hne, w1, w2, w3, w4, hni, h]
  · intro h1 h2 h3 h4 h5 h6 h7
    simp [_parse_scalar, h1, h2, h3, h4, h5, h6, h7]

/-- Witness for claim C8 at concrete tokens of every kind. -/
theorem c8_parse_scalar_cases_witness :
    _parse_scalar ("  -12 ") = Val.int (-12) ∧
    _parse_scalar ("NONE") = Val.null ∧
    _parse_scalar ("True") = Val.bool true ∧
    _parse_scalar ("3.50") = Val.float ("3.50") ∧
    _parse_scalar (" eggs  ") = Val.str ("eggs") := by
  refine ⟨?_, ?_, ?_, ?_, ?_⟩
  · exact ((c8_parse_scalar_cases ("  -12 ")).2.2.2.2.1 (by decide)).trans (by rfl)
  · exact (c8_parse_scalar_cases ("NONE")).2.1 (Or.inr (by decide))
  · exact (c8_parse_scalar_cases ("True")).2.2.1 (by decide)
  · exact ((c8_parse_scalar_cases ("3.50")).2.2.2.2.2.1 (by decide)).trans (by rfl)
  · exact ((c8_parse_scalar_cases (" eggs  ")).2.2.2.2.2.2 (by decide) (by decide) (by decide)
      (by decide) (by decide) (by decide) (by decide)).trans (by rfl)

/-! ## Claim C6: block literals -/

theorem gatherBlock_characterization (indent : Nat) (ls : List String) :
    gatherBlock indent ls =
      ((ls.takeWhile fun l => pyStrip l == "" || decide (indent < leadingSpaces l)).map
        (fun l => if pyStrip l == "" then "" else
          if indent + 2 ≤ l.length then dropChars (indent + 2) l else lstripSp l),
       ls.dropWhile fun l => pyStrip l == "" || decide (indent < leadingSpaces l)) := by
  induction ls with
  | nil => rfl
  | cons x rest ih =>
    by_cases h1 : pyStrip x = ""
    · simp [gatherBlock, List.takeWhile_cons, List.dropWhile_cons, h1, ih]
    · by_cases h2 : leadingSpaces x ≤ indent
      · have h2' : ¬ indent < leadingSpaces x := Nat.not_lt.mpr h2
        simp [gatherBlock, List.takeWhile_cons, List.dropWhile_cons, h1, h2, h2', ih]
      · have h2' : indent < leadingSpaces x := Nat.not_le.mp h2
        simp [gatherBlock, List.takeWhile_cons, List.dropWhile_cons, h1, h2, h2', ih]

/-- Claim C6 (corrected): in a block literal introduced by a `key: |` line
at indentation `indent`, the immediately following lines are consumed while
blank or indented strictly more than `indent`; a consumed blank line
becomes an empty value line, and a consumed non-blank line has its first
`indent + 2` characters removed when it is at least that long (these are
exactly its leading spaces when the line is indented by at least
`indent + 2`, but a line indented by exactly `indent + 1` also loses its
first non-space character), or all leading spaces stripped when shorter;
the value is the lines joined with newlines, trailing newlines trimmed. -/
theorem c6_block_literal_amended :
    (∀ (indent : Nat) (ls : List String),
      gatherBlock indent ls =
        ((ls.takeWhile fun l => pyStrip l == "" || decide (indent < leadingSpaces l)).map
          (fun l => if pyStrip l == "" then "" else
            if indent + 2 ≤ l.length then dropChars (indent + 2) l else lstripSp l),
         ls.dropWhile fun l => pyStrip l == "" || decide (indent < leadingSpaces l))) ∧
    parse_block ("  k: |\n    a\n\n    b\n") = .ok [(("k" : String), Val.str ("a\n\nb"))] ∧
    parse_block ("  k: |\n    a\n\n  m: 1") =
      .ok [(("k" : String), Val.str ("a")), (("m" : String), Val.int 1)] :=
  ⟨gatherBlock_characterization, rfl, rfl⟩

/-- Counterexample to claim C6 as stated: under the claim only leading
spaces are ever removed from a block-literal line, so the non-space
character of the line never disappears; but for the key line `  k: |`
(indentation 2) with continuation line `   x` (three leading spaces,
length 4 ≥ indent + 2 = 4) the source slices off the first four
characters, including the character `x`, yielding the empty value. -/
theorem c6_block_literal_counterexample :
    parse_block ("  k: |\n   x") = .ok [(("k" : String), Val.str (""))] ∧
    Val.str ("") ≠ Val.str ("x") :=
  ⟨rfl, by decide⟩

/-! ## Claim C9: tolerant loading -/

/-- Claim C9: `load_entries` is total over the backing file's text: a
non-blank line that fails to decode as JSON never aborts the load; it is
retained, in its position in the loaded sequence, as the marker mapping
with key `_corrupt_line` holding the raw line, while blank lines are
skipped entirely. -/
theorem c9_load_entries_total :
    (∀ (jsonLoad : String → Option Dict) (txt : String),
      load_entries_text jsonLoad txt =
        ((pySplitlines txt).filter fun l => !(pyStrip l == "")).map
          (fun l => match jsonLoad l with
            | some obj => obj
            | none => [("_corrupt_line", Val.str l)])) ∧
    load_entries_text (fun _ => none) ("good\n\nbad") =
      [[("_corrupt_line", Val.str ("good"))], [("_corrupt_line", Val.str ("bad"))]] := by
  refine ⟨?_, rfl⟩
  intro jsonLoad txt
  rw [load_entries_text]
  generalize pySplitlines txt = ls
  induction ls with
  | nil => rfl
  | cons x rest ih =>
    by_cases h : pyStrip x = ""
    · simp [load_entries, List.filter_cons, h, ih]
    · simp [load_entries, List.filter_cons, h, ih]

/-! ## Claim C5: persistence order -/

/-- Counterexample to claim C5 as stated: `write_entries` persists the
collection in its in-memory order; the collection with dates
2024-12-31, 2025-01-01, "" is written in exactly that order, which
differs from the descending order the claim requires. -/
theorem c5_write_order_counterexample :
    write_entries [[("date", Val.str ("2024-12-31"))], [("date", Val.str ("2025-01-01"))],
        [("date", Val.str (""))]] =
      "\x7b\x22date\x22: \x222024-12-31\x22\x7d\n\x7b\x22date\x22: \x222025-01-01\x22\x7d\n\x7b\x22date\x22: \x22\x22\x7d\n" ∧
    ("\x7b\x22date\x22: \x222024-12-31\x22\x7d\n\x7b\x22date\x22: \x222025-01-01\x22\x7d\n\x7b\x22date\x22: \x22\x22\x7d\n" : String) ≠
      "\x7b\x22date\x22: \x222025-01-01\x22\x7d\n\x7b\x22date\x22: \x222024-12-31\x22\x7d\n\x7b\x22date\x22: \x22\x22\x7d\n" :=
  ⟨rfl, by decide⟩

/-- Claim C5 (corrected): saving persists the full collection one JSON
object per line in the collection's in-memory order — appending an entry
appends its line — with no sorting; the collection with dates
[2024-12-31, 2025-01-01, ""] is persisted in that same order. -/
theorem c5_write_order_amended :
    (∀ (es : List Dict) (e : Dict),
      write_entries (es ++ [e]) = write_entries es ++ (jsonDumps (.dict e) ++ "\n")) ∧
    write_entries [[("date", Val.str ("2024-12-31"))], [("date", Val.str ("2025-01-01"))],
        [("date", Val.str (""))]] =
      "\x7b\x22date\x22: \x222024-12-31\x22\x7d\n\x7b\x22date\x22: \x222025-01-01\x22\x7d\n\x7b\x22date\x22: \x22\x22\x7d\n" := by
  refine ⟨?_, rfl⟩
  intro es e
  induction es with
  | nil =>
    show jsonDumps (.dict e) ++ "\n" ++ write_entries [] = "" ++ (jsonDumps (.dict e) ++ "\n")
    rw [write_entries, str_append_empty]
    cases hj : jsonDumps (.dict e) ++ "\n" with
    | mk d => show String.mk d = String.mk ([] ++ d); rw [List.nil_append]
  | cons x rest ih =>
    show jsonDumps (.dict x) ++ "\n" ++ write_entries (rest ++ [e]) =
      jsonDumps (.dict x) ++ "\n" ++ write_entries rest ++ (jsonDumps (.dict e) ++ "\n")
    rw [ih]
    simp only [str_append_assoc]

/-! ## Claim C1: the end-to-end scenario -/

/-- Claim C1: on the six-line submission the source parser fails — its
container stack starts with the root at indentation level 0 and
`current_container` pops every frame at level `≥` the line's indentation,
so the very first top-level line (indentation 0) pops the root and raises
the bad-nesting `ParseError`; with the root kept as a sentinel (the
behaviour the parser's docstring and the page's sample block describe),
parsing followed by normalization yields exactly the record the claim
states: breakfast text `eggs`, `breakfast_kcal` 300, derived
`total_kcal` 300. -/
theorem c1_parse_then_normalize :
    parse_block c1input = .error (nestingErrMsg) ∧
    (parse_block_intended c1input >>= normalize_entry ("2025-01-01") ("2025-01-01T00:00:00Z")) =
      .ok [("date", Val.str ("2025-01-01")),
        ("meals_text", Val.dict [("breakfast", Val.str ("eggs"))]),
        ("estimates", Val.dict [("breakfast_kcal", Val.int 300), ("total_kcal", Val.int 300)]),
        ("updated_at", Val.str ("2025-01-01T00:00:00Z"))] :=
  ⟨rfl, rfl⟩

/-! ## Claim C4: the reject policy -/

/-- Claim C4: when the incoming record's (validated) date already exists
in the store, upsert with `overwrite = false` returns the rejected
outcome with the already-exists message and leaves the stored collection
unchanged — the returned collection is the input collection itself, so
any lookup before and after the rejected upsert sees identical records.
The date-validity hypotheses reflect the store invariant that a record
with a malformed date never enters the store (validation precedes the
lookup in the source). -/
theorem c4_reject_preserves_store (entries : List Dict) (ne : Dict)
    (hd : entryDate ne ≠ "") (hp : datePattern (entryDate ne) = true)
    (hf : (entries.findIdx? fun e => entryDate e == entryDate ne).isSome = true) :
    upsert_entry ne false entries =
      .ok (entries, false,
        "Entry for " ++ entryDate ne ++ " already exists. Check overwrite to replace it.") := by
  obtain ⟨idx, hidx⟩ := Option.isSome_iff_exists.mp hf
  simp [upsert_entry, beq_eq_false_iff_ne.mpr hd, hp, hidx]
  rfl

/-- Witness for claim C4: a concrete one-record store rejects a second
submission for its date and is returned unchanged. -/
theorem c4_reject_preserves_store_witness :
    upsert_entry [("date", Val.str ("2025-01-05")), ("notes", Val.str ("x"))] false
        [[("date", Val.str ("2025-01-05"))]] =
      .ok ([[("date", Val.str ("2025-01-05"))]], false,
        "Entry for 2025-01-05 already exists. Check overwrite to replace it.") :=
  (c4_reject_preserves_store [[("date", Val.str ("2025-01-05"))]]
    [("date", Val.str ("2025-01-05")), ("notes", Val.str ("x"))]
    (by decide) (by decide) (by decide)).trans (by rfl)

/-! ## Claim C2: write policies -/

/-- Counterexample to claim C2 as stated: `upsert_entry` has only the two
policies of its boolean `overwrite` flag.  For a stored record with
breakfast `eggs` and an incoming record for the same date with breakfast
`toast`, the `false` policy rejects and keeps `eggs`, and the `true`
policy replaces the record wholesale so breakfast becomes `toast`; no
policy produces the merged text `eggs\ntoast`. -/
theorem c2_no_merge_counterexample :
    upsert_entry toastEntry false [eggsEntry] =
      .ok ([eggsEntry], false,
        "Entry for 2025-01-01 already exists. Check overwrite to replace it.") ∧
    upsert_entry toastEntry true [eggsEntry] =
      .ok ([toastEntry], true, "Overwrote existing entry for 2025-01-01.") ∧
    dictGetD eggsEntry ("meals_text") Val.null = Val.dict [("breakfast", Val.str ("eggs"))] ∧
    dictGetD toastEntry ("meals_text") Val.null = Val.dict [("breakfast", Val.str ("toast"))] ∧
    Val.str ("toast") ≠ Val.str ("eggs\ntoast") :=
  ⟨rfl, rfl, rfl, rfl, by decide⟩

/-- Claim C2 (corrected): upsert supports exactly two reconciliation
policies, selected by the boolean `overwrite` flag — Reject (`false`) and
Overwrite (`true`).  When a record already exists for the incoming
record's (validated) date, Overwrite replaces the stored record
wholesale, so every slot takes the incoming value (breakfast becomes
`toast`, not `eggs\ntoast`); there is no field-wise merge. -/
theorem c2_overwrite_replaces_wholesale (entries : List Dict) (ne : Dict) (idx : Nat)
    (hd : entryDate ne ≠ "") (hp : datePattern (entryDate ne) = true)
    (hidx : (entries.findIdx? fun e => entryDate e == entryDate ne) = some idx) :
    upsert_entry ne true entries =
      .ok (entries.set idx ne, true, "Overwrote existing entry for " ++ entryDate ne ++ ".") := by
  simp [upsert_entry, beq_eq_false_iff_ne.mpr hd, hp, hidx]
  rfl

/-- Witness for the corrected claim C2 at the eggs/toast instance. -/
theorem c2_overwrite_replaces_wholesale_witness :
    upsert_entry toastEntry true [eggsEntry] =
      .ok ([toastEntry], true, "Overwrote existing entry for 2025-01-01.") :=
  (c2_overwrite_replaces_wholesale [eggsEntry] toastEntry 0
    (by decide) (by decide) (by decide)).trans (by rfl)

/-! ## Claim C3: date validation -/

/-- Counterexample to claim C3 as stated: the date `2025-13-01` matches
the pattern `\d{4}-\d{2}-\d{2}` (13 is two digits), so upsert accepts it
and saves the record instead of rejecting it. -/
theorem c3_pattern_only_counterexample :
    upsert_entry [("date", Val.str ("2025-13-01"))] false [] =
      .ok ([[("date", Val.str ("2025-13-01"))]], true, "Saved new entry for 2025-13-01.") :=
  rfl

/-- Claim C3 (corrected): upsert validates the date as a pure format
check before touching the store: `2025-1-5` is rejected with the
format-error `ParseError` and an absent/empty date with the
missing-field `ParseError`, for every store state and policy;
`2025-01-05` is accepted, and so is `2025-13-01`, because nothing
beyond the pattern `\d{4}-\d{2}-\d{2}` is enforced. -/
theorem c3_date_validation_amended :
    (∀ (entries : List Dict) (ow : Bool),
      upsert_entry [("date", Val.str ("2025-1-5"))] ow entries =
        .error "date must be YYYY-MM-DD") ∧
    (∀ (entries : List Dict) (ow : Bool),
      upsert_entry [("date", Val.str (""))] ow entries =
        .error "Missing required field: date") ∧
    upsert_entry [("date", Val.str ("2025-01-05"))] false [] =
      .ok ([[("date", Val.str ("2025-01-05"))]], true, "Saved new entry for 2025-01-05.") ∧
    upsert_entry [("date", Val.str ("2025-13-01"))] true [] =
      .ok ([[("date", Val.str ("2025-13-01"))]], true, "Saved new entry for 2025-13-01.") :=
  ⟨fun _ _ => rfl, fun _ _ => rfl, rfl, rfl⟩

/-! ## Claims C7 and C10: the derived total -/

/-- Counterexample to claim C7 as stated: with
`estimates = {breakfast_kcal: 350, lunch_kcal: true}` and no `total_kcal`,
the claim's rule (non-integer meal values skipped silently) yields a
total of 350, but normalization derives 351 because the boolean passes
the `isinstance(v, int)` check and contributes 1. -/
theorem c7_nonint_skipped_counterexample :
    normalize_entry ("2025-06-01") ("T") [("date", Val.str ("2025-06-02")),
        ("estimates", Val.dict [("breakfast_kcal", Val.int 350), ("lunch_kcal", Val.bool true)])] =
      .ok [("date", Val.str ("2025-06-02")), ("meals_text", Val.dict []),
        ("estimates", Val.dict [("breakfast_kcal", Val.int 350), ("lunch_kcal", Val.bool true),
          ("total_kcal", Val.int 351)]),
        ("updated_at", Val.str ("T"))] ∧
    Val.int 351 ≠ Val.int 350 :=
  ⟨rfl, by decide⟩

/-- Claim C7 (corrected): when `total_kcal` is absent after alias
handling, the derived-total step sums exactly the meal fields whose
values pass the source's integer test `isinstance(v, int)` — which
accepts booleans as well as ints — appending `total_kcal` with that sum
whenever at least one field passes, and leaving the estimates unchanged
otherwise; other non-integer meal values are skipped silently and not
coerced.  In particular `{breakfast_kcal: 350, lunch_kcal: 650}` with no
`total_kcal` yields `total_kcal = 1000`. -/
theorem c7_derived_total_amended :
    (∀ fs : Dict, hasKey fs ("total_kcal") = false →
      deriveTotal fs =
        (if mealKeys.any (fun k => pyIsInt (dictGetD fs k Val.null)) then
          fs ++ [("total_kcal",
            Val.int (((mealKeys.filter fun k => pyIsInt (dictGetD fs k Val.null)).map
              (fun k => pyIntVal (dictGetD fs k Val.null))).sum))]
        else fs)) ∧
    normalize_entry ("2025-06-01") ("T") [("date", Val.str ("2025-06-02")),
        ("estimates", Val.dict [("breakfast_kcal", Val.int 350), ("lunch_kcal", Val.int 650)])] =
      .ok [("date", Val.str ("2025-06-02")), ("meals_text", Val.dict []),
        ("estimates", Val.dict [("breakfast_kcal", Val.int 350), ("lunch_kcal", Val.int 650),
          ("total_kcal", Val.int 1000)]),
        ("updated_at", Val.str ("T"))] := by
  refine ⟨?_, rfl⟩
  intro fs h
  have hset : ∀ v, dictSet fs ("total_kcal") v = fs ++ [(("total_kcal" : String), v)] :=
    fun v => dictSet_append fs _ v h
  rw [deriveTotal]
  simp only [h, Bool.false_eq_true, if_false, mealKeys]
  cases hb : pyIsInt (dictGetD fs ("breakfast_kcal") Val.null) <;>
    cases hl : pyIsInt (dictGetD fs ("lunch_kcal") Val.null) <;>
      cases hd : pyIsInt (dictGetD fs ("dinner_kcal") Val.null) <;>
        cases hs : pyIsInt (dictGetD fs ("snacks_kcal") Val.null) <;>
          simp [hb, hl, hd, hs, hset] <;> omega

/-- Witness for the corrected claim C7 at the spec's example. -/
theorem c7_derived_total_amended_witness :
    deriveTotal [("breakfast_kcal", Val.int 350), ("lunch_kcal", Val.int 650)] =
      [("breakfast_kcal", Val.int 350), ("lunch_kcal", Val.int 650),
        ("total_kcal", Val.int 1000)] :=
  (c7_derived_total_amended.1 [("breakfast_kcal", Val.int 350), ("lunch_kcal", Val.int 650)]
    (by decide)).trans (by rfl)

/-- Claim C10: in the derived-total computation a boolean stored under a
meal-kcal key passes the integer test (`isinstance(v, int)` accepts
booleans) and is counted rather than skipped: true contributes 1 and
false contributes 0, both at the `deriveTotal` step and through
`normalize_entry`. -/
theorem c10_bool_counted_as_int :
    pyIsInt (Val.bool true) = true ∧ pyIsInt (Val.bool false) = true ∧
    pyIntVal (Val.bool true) = 1 ∧ pyIntVal (Val.bool false) = 0 ∧
    deriveTotal [("breakfast_kcal", Val.bool true)] =
      [("breakfast_kcal", Val.bool true), ("total_kcal", Val.int 1)] ∧
    deriveTotal [("breakfast_kcal", Val.bool false)] =
      [("breakfast_kcal", Val.bool false), ("total_kcal", Val.int 0)] ∧
    normalize_entry ("2025-06-01") ("T") [("date", Val.str ("2025-06-02")),
        ("estimates", Val.dict [("dinner_kcal", Val.int 5), ("snacks_kcal", Val.bool true)])] =
      .ok [("date", Val.str ("2025-06-02")), ("meals_text", Val.dict []),
        ("estimates", Val.dict [("dinner_kcal", Val.int 5), ("snacks_kcal", Val.bool true),
          ("total_kcal", Val.int 6)]),
        ("updated_at", Val.str ("T"))] :=
  ⟨rfl, rfl, rfl, rfl, rfl, rfl, rfl⟩

end LoseIt
